import Mathlib

/-!
Shallow embedding of the mergekit planning/driver core, translated from
`src/mergekit/merge.py` and `src/mergekit/plan.py`.

Pure data and control flow are modelled directly; external collaborators
(config parsing, architecture metadata lookup, the merge-method registry,
tensor I/O) are represented only through the interface values these two
modules actually read.  Python `RuntimeError` / `TypeError` / `IndexError`
outcomes are modelled with an explicit error type; Python's float division
for the interpolation fraction is modelled exactly with `ℚ`.
-/

namespace Mergekit

/-- A reference to a source model (`mergekit.common.ModelReference`),
identified here by its path string; equality is structural. -/
abbrev ModelReference := String

/-- One input to an output slice (`mergekit.config.InputSliceDefinition`):
a source model and a layer range `[lo, hi)`, Python ints modelled as `Int`. -/
structure InputSliceDefinition where
  model : ModelReference
  layer_range : Int × Int
deriving DecidableEq, Repr

/-- One output slice (`mergekit.config.OutputSliceDefinition`). -/
structure OutputSliceDefinition where
  sources : List InputSliceDefinition
deriving DecidableEq, Repr

/-- The fields of `mergekit.config.MergeConfiguration` that `merge.py` and
`plan.py` read.  The config module is an external collaborator; only the
consumed fields are carried. -/
structure MergeConfiguration where
  merge_method : String
  base_model : Option String := none
  models : List ModelReference := []
  slices : List OutputSliceDefinition := []
  dtype : Option String := none
deriving DecidableEq, Repr

/-- `MergeOptions` from `merge.py` (lines 31-43).  `out_shard_size` defaults to
`parse_kmb("5B")`, i.e. five billion bytes. -/
structure MergeOptions where
  allow_crimes : Bool := false
  transformers_cache : Option String := none
  lora_merge_cache : Option String := none
  cuda : Bool := false
  low_cpu_memory : Bool := false
  out_shard_size : Nat := 5000000000
  copy_tokenizer : Bool := true
  clone_tensors : Bool := false
  trust_remote_code : Bool := false
  random_seed : Option Int := none
  lazy_unpickle : Bool := false
deriving DecidableEq, Repr

/-- The architecture-metadata interface the planner consumes: embedding-class
weight names, pre-weights, post-weights, and per-layer weight name templates
(each template contains the placeholder `\x7bidx\x7d`). -/
structure ArchitectureInfo where
  embed_weights : List String
  pre_weights : List String
  post_weights : List String
  layer_weight_formats : List String
deriving DecidableEq, Repr

instance : Inhabited ArchitectureInfo := ⟨⟨[], [], [], []⟩⟩

/-- Python exception outcomes of the modelled code paths. -/
inductive PyError where
  | runtimeError (msg : String)
  | typeError (msg : String)
  | indexError
deriving DecidableEq, Repr

/-- Substitute the rendered index `r` for every occurrence of the five-char
placeholder `\x7bidx\x7d` in a character list. -/
def substIdxChars (r : List Char) : List Char → List Char
  | [] => []
  | '\x7b' :: 'i' :: 'd' :: 'x' :: '\x7d' :: rest => r ++ substIdxChars r rest
  | c :: rest => c :: substIdxChars r rest

/-- `name_format.format(idx=i)`: substitute the layer index for the
`\x7bidx\x7d` placeholder in a weight-name template. -/
def formatIdx (template : String) (idx : Int) : String :=
  ⟨substIdxChars (toString idx).data template.data⟩

/-- The slice of `mergekit.config.ConfigReader` state that `plan.py` threads
into task construction: the interpolation fraction `t` and the tensor name
context.  Parameter resolution itself is external. -/
structure ConfigReader where
  t : ℚ
  tensor_name : Option String := none
deriving DecidableEq, Repr

/-- `ConfigReader.with_t`: return a reader with the given interpolation
fraction. -/
def ConfigReader.with_t (c : ConfigReader) (t : ℚ) : ConfigReader :=
  { c with t := t }

/-- `ConfigReader.for_in_slices`: record the input-slice context; the fields
modelled here are unchanged. -/
def ConfigReader.for_in_slices (c : ConfigReader)
    (_sources : Option (List InputSliceDefinition)) : ConfigReader :=
  c

/-- Which merge computation a planned tensor task uses: the configured method
from the registry (identified by its name), or the vocabulary-alignment-aware
`TokenizerPermutationMerge` substituted for embedding-class weights. -/
inductive MergeMethodChoice where
  | configured (method_name : String)
  | tokenizerPermutationMerge
deriving DecidableEq, Repr

/-- A `SaveTensor` task together with the merge task it depends on, as built
by `MergePlanner.plan_tensor` (plan.py lines 70-122): the output tensor name,
the gathered input names and models, the base model, the merge computation,
the interpolation fraction resolved from the config reader, and the clone
flag. -/
structure SaveTask where
  tensor_name : String
  names_in : List String
  models : List ModelReference
  base_model : Option String
  method : MergeMethodChoice
  t : ℚ
  clone : Bool
deriving DecidableEq, Repr

/-- A task in the returned plan: a save task, the `FinalizeModel` task (whose
`tensor_save_tasks` dependency list is carried), or the `BuildTokenizer`
task. -/
inductive Task where
  | save (s : SaveTask)
  | finalize (tensor_save_tasks : List SaveTask)
  | buildTokenizer
deriving DecidableEq, Repr

/-- `TensorWriterTask` identity: output path and maximum shard size. -/
structure TensorWriterTask where
  out_path : String
  max_shard_size : Nat
deriving DecidableEq, Repr

/-- The `MergePlanner` state (plan.py lines 40-48).  `_method` carries the
name under which `merge_methods.get` resolved the configured method. -/
structure MergePlanner where
  config : MergeConfiguration
  arch_info : ArchitectureInfo
  clone_tensors : Bool
  _method : String
  _writer_task : TensorWriterTask
  _tasks : List SaveTask := []
  _current_layers : Int := 0
  _tokenizer_task : Bool := false
deriving DecidableEq, Repr

/-- `MergePlanner.__init__` as declared (plan.py lines 50-68): takes `config`,
`arch_info`, `out_path` and an `options : MergeOptions`.  The tokenizer-build
task is created when `config.merge_method` is truthy (line 65). -/
def MergePlanner.init (config : MergeConfiguration) (arch_info : ArchitectureInfo)
    (out_path : String) (options : MergeOptions) : MergePlanner :=
  { config := config
    arch_info := arch_info
    clone_tensors := options.clone_tensors
    _method := config.merge_method
    _writer_task := { out_path := out_path, max_shard_size := options.out_shard_size }
    _tasks := []
    _current_layers := 0
    _tokenizer_task := config.merge_method != "" }

/-- `MergePlanner.plan_tensor` (plan.py lines 70-122): choose the merge
computation (substituting `TokenizerPermutationMerge` for embedding-class
weights when a tokenizer task exists), build the gather/merge/save chain and
append the save task. -/
def MergePlanner.plan_tensor (p : MergePlanner) (name : String)
    (names_in : List String) (models : List ModelReference)
    (cfg_reader : ConfigReader) : MergePlanner :=
  let is_embed := decide (name ∈ p.arch_info.embed_weights)
  let tensor_merge_method :=
    if p._tokenizer_task && is_embed then MergeMethodChoice.tokenizerPermutationMerge
    else MergeMethodChoice.configured p._method
  let save_task : SaveTask :=
    { tensor_name := name
      names_in := names_in
      models := models
      base_model := p.config.base_model
      method := tensor_merge_method
      t := cfg_reader.t
      clone := p.clone_tensors }
  { p with _tasks := p._tasks ++ [save_task] }

/-- Body of `plan_layer`'s loop over the per-layer weight templates
(plan.py lines 131-142): the output name uses `self._current_layers` (which
no code path ever increments) and the input names use each source's
layer-range offset; each weight is planned with `cfg_reader.with_t t`. -/
def planLayerStep (sources : List InputSliceDefinition) (layer_offset : Nat)
    (t : ℚ) (cfg_reader : ConfigReader) (q : MergePlanner)
    (name_format : String) : MergePlanner :=
  let name_out := formatIdx name_format q._current_layers
  let names_in := sources.map (fun s =>
    formatIdx name_format (s.layer_range.1 + (layer_offset : Int)))
  q.plan_tensor name_out names_in (sources.map (fun s => s.model))
    (cfg_reader.with_t t)

/-- `MergePlanner.plan_layer` (plan.py lines 124-142). -/
def MergePlanner.plan_layer (p : MergePlanner)
    (sources : List InputSliceDefinition) (layer_offset : Nat) (t : ℚ)
    (cfg_reader : ConfigReader) : MergePlanner :=
  p.arch_info.layer_weight_formats.foldl
    (planLayerStep sources layer_offset t cfg_reader) p

/-- The interpolation fraction computed for output layer `idx` of a slice with
`num_layers` layers (plan.py lines 156-160): `idx / (num_layers - 1)` under
Python true division when `num_layers > 1`, else `1`. -/
def interpolationT (num_layers : Int) (idx : Nat) : ℚ :=
  if num_layers > 1 then (idx : ℚ) / ((num_layers : ℚ) - 1) else 1

/-- The `(idx, t)` schedule of `for idx in range(num_layers)` in
`plan_slice` (plan.py lines 155-160). -/
def layerSchedule (num_layers : Int) : List (Nat × ℚ) :=
  (List.range num_layers.toNat).map (fun idx => (idx, interpolationT num_layers idx))

/-- Message of the unequal-layer-count error (plan.py line 150). -/
def sliceLengthsMsg : String :=
  "All inputs to a slice must contain the same number of layers"

/-- `MergePlanner.plan_slice` (plan.py lines 144-167): check that all sources
span equal layer counts, then plan each output layer with its interpolation
fraction.  `slice_lengths[0]` on an empty source list is Python's
`IndexError`. -/
def MergePlanner.plan_slice (p : MergePlanner)
    (definition : OutputSliceDefinition) : Except PyError MergePlanner :=
  let slice_lengths := definition.sources.map
    (fun s => s.layer_range.2 - s.layer_range.1)
  if !(slice_lengths.all (fun s => decide (s = slice_lengths.headD 0))) then
    .error (.runtimeError sliceLengthsMsg)
  else
    match slice_lengths.head? with
    | none => .error .indexError
    | some num_layers =>
      let cfg_reader : ConfigReader := { t := 0 }
      .ok ((layerSchedule num_layers).foldl (fun q it =>
        q.plan_layer definition.sources it.1 it.2
          (cfg_reader.for_in_slices (some definition.sources))) p)

/-- Pre-weight planning pass of `MergePlanner.plan` (plan.py lines 172-178):
each pre-weight is planned from the first slice's sources with `t = 0`;
`config.slices[0]` on an empty slice list is an `IndexError`. -/
def planPreWeights (p : MergePlanner) : Except PyError MergePlanner :=
  p.arch_info.pre_weights.foldlM (fun (q : MergePlanner) weight_name =>
    match q.config.slices.head? with
    | none => .error .indexError
    | some slice0 => .ok (q.plan_tensor weight_name
        (List.replicate slice0.sources.length weight_name)
        (slice0.sources.map (fun s => s.model))
        { t := 0, tensor_name := some weight_name })) p

/-- Slice planning pass of `MergePlanner.plan` (plan.py lines 180-181). -/
def planSlices (p : MergePlanner) : Except PyError MergePlanner :=
  p.config.slices.foldlM (fun (q : MergePlanner) s => q.plan_slice s) p

/-- Post-weight planning pass of `MergePlanner.plan` (plan.py lines 183-189):
each post-weight is planned from the last slice's sources with `t = 1`. -/
def planPostWeights (p : MergePlanner) : Except PyError MergePlanner :=
  p.arch_info.post_weights.foldlM (fun (q : MergePlanner) weight_name =>
    match q.config.slices.getLast? with
    | none => .error .indexError
    | some sliceL => .ok (q.plan_tensor weight_name
        (List.replicate sliceL.sources.length weight_name)
        (sliceL.sources.map (fun s => s.model))
        { t := 1, tensor_name := some weight_name })) p

/-- `MergePlanner.plan` (plan.py lines 169-199): reset `_tasks`, plan
pre-weights, every slice, post-weights, append one `FinalizeModel` whose
`tensor_save_tasks` is the list of all save tasks accumulated so far, and
append the tokenizer task if one was created. -/
def MergePlanner.plan (p0 : MergePlanner) : Except PyError (List Task) :=
  let p := { p0 with _tasks := [] }
  match planPreWeights p with
  | .error e => .error e
  | .ok p1 =>
    match planSlices p1 with
    | .error e => .error e
    | .ok p2 =>
      match planPostWeights p2 with
      | .error e => .error e
      | .ok p3 =>
        let res := p3._tasks.map Task.save ++ [Task.finalize p3._tasks]
        .ok (if p3._tokenizer_task then res ++ [Task.buildTokenizer] else res)

/-- The parameters `MergePlanner.__init__` declares after `self`
(plan.py lines 50-56); none has a default. -/
def mergePlannerInitParams : List String :=
  ["config", "arch_info", "out_path", "options"]

/-- The keyword arguments `run_merge` passes to `MergePlanner`
(merge.py lines 69-75). -/
def mergePlannerCallKwargs : List String :=
  ["out_path", "max_shard_size", "clone_tensors"]

/-- The number of positional arguments `run_merge` passes to `MergePlanner`
(merge.py lines 69-71: `merge_config`, `arch_info`). -/
def mergePlannerCallNumPositional : Nat := 2

/-- Python call-argument binding for a function whose parameters are all
positional-or-keyword with no `*args` / `**kwargs`: reject extra positional
arguments, unexpected keyword arguments, keywords that duplicate a
positionally-bound parameter, and missing required parameters. -/
def bindPythonCall (params withDefault : List String) (numPositional : Nat)
    (kwargs : List String) : Except String Unit :=
  if params.length < numPositional then
    .error "too many positional arguments"
  else
    let positional := params.take numPositional
    match kwargs.find? (fun kw => !(params.contains kw)) with
    | some kw => .error ("unexpected keyword argument: " ++ kw)
    | none =>
      match kwargs.find? (fun kw => positional.contains kw) with
      | some kw => .error ("got multiple values for argument: " ++ kw)
      | none =>
        match params.find? (fun q => !(positional.contains q) &&
            !(kwargs.contains q) && !(withDefault.contains q)) with
        | some q => .error ("missing required argument: " ++ q)
        | none => .ok ()

/-- Message of the no-output configuration error (merge.py line 51). -/
def noOutputMsg : String := "No output requested"

/-- Message of the architecture-mixing error (merge.py lines 58-60). -/
def archMixingMsg : String :=
  "Must specify --allow-crimes to attempt to mix different architectures"

/-- The `TypeError` produced by the `MergePlanner(...)` call in `run_merge`:
the first keyword argument that `MergePlanner.__init__` does not declare. -/
def unexpectedKwargMsg : String :=
  "unexpected keyword argument: max_shard_size"

/-- `run_merge` (merge.py lines 46-121) up to and including the
`MergePlanner(...).plan()` call.  `model_arch_info` stands for the
externally computed `get_architecture_info` results, one per referenced
model, in order.  The stages modelled are: the no-output check (lines 50-51),
the architecture-equality check gated on `allow_crimes` (lines 56-60), taking
`model_arch_info[0]` (line 61, an `IndexError` when no model is referenced),
and the `MergePlanner` construction (lines 69-75), whose keyword arguments
are bound against the declared `__init__` parameters; a binding failure is
Python's `TypeError`. -/
def run_merge_model (config : MergeConfiguration)
    (model_arch_info : List ArchitectureInfo) (out_path : String)
    (options : MergeOptions) : Except PyError (List Task) :=
  if config.models.isEmpty && config.slices.isEmpty then
    .error (.runtimeError noOutputMsg)
  else if !options.allow_crimes &&
      !((model_arch_info.drop 1).all
        (fun a => decide (a = model_arch_info.headD default))) then
    .error (.runtimeError archMixingMsg)
  else
    match model_arch_info.head? with
    | none => .error .indexError
    | some arch_info =>
      match bindPythonCall mergePlannerInitParams [] mergePlannerCallNumPositional
          mergePlannerCallKwargs with
      | .error m => .error (.typeError m)
      | .ok _ => (MergePlanner.init config arch_info out_path options).plan

/-! ## Shared helper lemmas -/

/-- A nonempty list is not `isEmpty`. -/
theorem isEmpty_false_of_ne_nil {α : Type} {l : List α} (h : l ≠ []) :
    l.isEmpty = false := by
  cases l with
  | nil => exact absurd rfl h
  | cons a t => rfl

/-- Binding the arguments of the `MergePlanner(...)` call in `run_merge`
against the declared `__init__` parameters fails on the first undeclared
keyword argument. -/
theorem plannerCallBinding_eq :
    bindPythonCall mergePlannerInitParams [] mergePlannerCallNumPositional
      mergePlannerCallKwargs = .error unexpectedKwargMsg := rfl

/-! ## C1 -/

/-- The configuration of `tests/test_merges.py::test_gpt2_copy`: a
single-model passthrough merge. -/
def gpt2CopyConfig : MergeConfiguration :=
  { merge_method := "passthrough", models := ["gpt2"], dtype := some "bfloat16" }

/-- C1: the claim says a single-model passthrough merge completes with every
output weight byte-identical to its source.  Evaluating `run_merge` at the
repository's own passthrough test configuration shows it instead raises a
`TypeError` while constructing `MergePlanner` (undeclared keyword argument
`max_shard_size`), so the merge never completes and no weight is written. -/
theorem run_merge_gpt2_copy_type_error :
    run_merge_model gpt2CopyConfig [default] "out" {} =
      .error (.typeError unexpectedKwargMsg) := rfl

/-! ## C2 -/

/-- C2: every configuration that passes the no-output check and the
architecture-compatibility check makes `run_merge` raise before any task plan
is built: the `MergePlanner(...)` call passes keyword arguments
`max_shard_size` and `clone_tensors` that `MergePlanner.__init__` does not
declare and does not supply the declared `options` parameter, so argument
binding raises a `TypeError` and execution never starts. -/
theorem run_merge_planner_call_always_fails (config : MergeConfiguration)
    (model_arch_info : List ArchitectureInfo) (out_path : String)
    (options : MergeOptions)
    (hout : config.models ≠ [] ∨ config.slices ≠ [])
    (harch : options.allow_crimes = true ∨
      ∀ a ∈ model_arch_info, a = model_arch_info.headD default)
    (hne : model_arch_info ≠ []) :
    run_merge_model config model_arch_info out_path options =
      .error (.typeError unexpectedKwargMsg) ∧
    "max_shard_size" ∉ mergePlannerInitParams ∧
    "clone_tensors" ∉ mergePlannerInitParams ∧
    "max_shard_size" ∈ mergePlannerCallKwargs ∧
    "clone_tensors" ∈ mergePlannerCallKwargs ∧
    "options" ∈ mergePlannerInitParams ∧
    "options" ∉ mergePlannerCallKwargs := by
  have h1 : (config.models.isEmpty && config.slices.isEmpty) = false := by
    rcases hout with h | h
    · rw [isEmpty_false_of_ne_nil h, Bool.false_and]
    · rw [isEmpty_false_of_ne_nil h, Bool.and_false]
  have h2 : (!options.allow_crimes &&
      !((model_arch_info.drop 1).all
        (fun a => decide (a = model_arch_info.headD default)))) = false := by
    rcases harch with h | h
    · rw [h]; rfl
    · have hall : (model_arch_info.drop 1).all
          (fun a => decide (a = model_arch_info.headD default)) = true := by
        rw [List.all_eq_true]
        intro a ha
        exact decide_eq_true (h a (List.drop_subset 1 model_arch_info ha))
      rw [hall, Bool.not_true, Bool.and_false]
  refine ⟨?_, by decide, by decide, by decide, by decide, by decide, by decide⟩
  cases hm : model_arch_info with
  | nil => exact absurd hm hne
  | cons a0 rest =>
    rw [hm] at h2
    simp only [run_merge_model, h1, Bool.false_eq_true, if_false, h2,
      List.head?_cons, plannerCallBinding_eq]

/-- Witness for C2 at the two-slice passthrough configuration of
`tests/test_merges.py::test_gpt2_stack`. -/
def gpt2StackConfig : MergeConfiguration :=
  { merge_method := "passthrough",
    slices := [{ sources := [{ model := "gpt2", layer_range := (0, 12) },
                             { model := "gpt2", layer_range := (0, 12) }] }],
    dtype := some "bfloat16" }

/-- Witness for C2: the hypotheses hold at the stack-test configuration and
the conclusion evaluates there. -/
theorem run_merge_planner_call_always_fails_witness :
    run_merge_model gpt2StackConfig [default] "out" {} =
      .error (.typeError unexpectedKwargMsg) :=
  (run_merge_planner_call_always_fails gpt2StackConfig [default] "out" {}
    (Or.inr (by decide)) (Or.inr (by intro a ha; simpa using ha))
    (by simp)).1

/-! ## C6 -/

/-- C6: `run_merge` fails with the configuration error "No output requested"
exactly when the configuration supplies neither a whole-model list nor a
slice list; the check is the first stage of `run_merge`, before architecture
lookup, planning or execution, so no output is produced. -/
theorem run_merge_no_output_iff (config : MergeConfiguration)
    (model_arch_info : List ArchitectureInfo) (out_path : String)
    (options : MergeOptions) :
    run_merge_model config model_arch_info out_path options =
      .error (.runtimeError noOutputMsg) ↔
    (config.models = [] ∧ config.slices = []) := by
  constructor
  · intro h
    by_cases hb : (config.models.isEmpty && config.slices.isEmpty) = true
    · rw [Bool.and_eq_true, List.isEmpty_iff, List.isEmpty_iff] at hb
      exact hb
    · exfalso
      rw [run_merge_model, if_neg hb] at h
      by_cases hc : (!options.allow_crimes &&
          !((model_arch_info.drop 1).all
            (fun a => decide (a = model_arch_info.headD default)))) = true
      · rw [if_pos hc] at h
        simp [noOutputMsg, archMixingMsg] at h
      · rw [if_neg hc] at h
        cases hm : model_arch_info with
        | nil => rw [hm] at h; simp at h
        | cons a0 rest =>
          rw [hm] at h
          simp only [List.head?_cons, plannerCallBinding_eq] at h
          simp at h
  · intro ⟨h1, h2⟩
    rw [run_merge_model, if_pos]
    rw [h1, h2]
    rfl

/-! ## C7 -/

/-- C7: when the referenced models' architecture infos are not all equal to
the first one and permissive mixing (`allow_crimes`) is off, `run_merge`
fails with the fatal architecture-mixing error before planning; when
`allow_crimes` is on the equality check is skipped entirely, so that error
can never be raised. -/
theorem run_merge_arch_compat_check (config : MergeConfiguration)
    (model_arch_info : List ArchitectureInfo) (out_path : String)
    (options : MergeOptions) (a0 a : ArchitectureInfo)
    (hout : config.models ≠ [] ∨ config.slices ≠ []) :
    (options.allow_crimes = false → model_arch_info.head? = some a0 →
      a ∈ model_arch_info → a ≠ a0 →
      run_merge_model config model_arch_info out_path options =
        .error (.runtimeError archMixingMsg)) ∧
    (options.allow_crimes = true →
      run_merge_model config model_arch_info out_path options ≠
        .error (.runtimeError archMixingMsg)) := by
  have h1 : (config.models.isEmpty && config.slices.isEmpty) = false := by
    rcases hout with h | h
    · rw [isEmpty_false_of_ne_nil h, Bool.false_and]
    · rw [isEmpty_false_of_ne_nil h, Bool.and_false]
  constructor
  · intro hac hhead hmem hne
    cases hm : model_arch_info with
    | nil => rw [hm] at hhead; exact absurd hhead (by simp)
    | cons b rest =>
      rw [hm] at hhead hmem
      have hb : b = a0 := by simpa using hhead
      have hne' : a ≠ b := fun h => hne (h.trans hb)
      have hmem' : a ∈ rest := by
        rcases List.mem_cons.mp hmem with h | h
        · exact absurd h hne'
        · exact h
      have hall : (rest.all (fun x => decide (x = b))) = false := by
        by_contra hc
        rw [Bool.not_eq_false, List.all_eq_true] at hc
        have := hc a hmem'
        rw [decide_eq_true_eq] at this
        exact hne' this
      rw [run_merge_model, if_neg (by rw [h1]; simp), if_pos]
      rw [hac]
      simp only [List.drop_succ_cons, List.drop_zero, List.headD_cons, hall]
      rfl
  · intro hac h
    rw [run_merge_model, if_neg (by rw [h1]; simp)] at h
    rw [if_neg (by rw [hac]; simp)] at h
    cases hm : model_arch_info with
    | nil => rw [hm] at h; simp at h
    | cons b rest =>
      rw [hm] at h
      simp only [List.head?_cons, plannerCallBinding_eq] at h
      simp at h

/-- Witness for C7: two different architecture infos without
`allow_crimes` produce the architecture-mixing error, and with
`allow_crimes` they do not. -/
theorem run_merge_arch_compat_check_witness :
    run_merge_model gpt2CopyConfig
      [default, ⟨["embed"], [], [], []⟩] "out" {} =
      .error (.runtimeError archMixingMsg) ∧
    run_merge_model gpt2CopyConfig
      [default, ⟨["embed"], [], [], []⟩] "out" { allow_crimes := true } ≠
      .error (.runtimeError archMixingMsg) := by
  constructor
  · exact (run_merge_arch_compat_check gpt2CopyConfig
      [default, ⟨["embed"], [], [], []⟩] "out" {} default ⟨["embed"], [], [], []⟩
      (Or.inl (by simp [gpt2CopyConfig]))).1 rfl rfl (by simp) (by decide)
  · exact (run_merge_arch_compat_check gpt2CopyConfig
      [default, ⟨["embed"], [], [], []⟩] "out" { allow_crimes := true } default
      ⟨["embed"], [], [], []⟩ (Or.inl (by simp [gpt2CopyConfig]))).2 rfl

/-! ## C4 -/

/-- C4: `plan_slice` raises the fatal "All inputs to a slice must contain the
same number of layers" error exactly when some source's layer-range length
differs from the first source's.  The check is the first statement of
`plan_slice`, so it fires during planning before any task is built, and the
planner state `p` carries no permissive-mixing flag at all, so the outcome is
independent of `allow_crimes`. -/
theorem plan_slice_equal_length_check (p : MergePlanner)
    (d : OutputSliceDefinition) :
    p.plan_slice d = .error (.runtimeError sliceLengthsMsg) ↔
      ∃ s ∈ d.sources, s.layer_range.2 - s.layer_range.1 ≠
        ((d.sources.map (fun s => s.layer_range.2 - s.layer_range.1)).headD 0) := by
  simp only [MergePlanner.plan_slice]
  set L := d.sources.map (fun s => s.layer_range.2 - s.layer_range.1) with hL
  by_cases hall : (L.all fun s => decide (s = L.headD 0)) = true
  · rw [if_neg (by rw [hall]; simp)]
    constructor
    · intro h
      exfalso
      cases hh : L.head? with
      | none => rw [hh] at h; simp at h
      | some n => rw [hh] at h; simp at h
    · rintro ⟨s, hs, hne⟩
      exfalso
      have hmem : s.layer_range.2 - s.layer_range.1 ∈ L := by
        rw [hL]
        exact List.mem_map_of_mem _ hs
      have := List.all_eq_true.mp hall _ hmem
      rw [decide_eq_true_eq] at this
      exact hne this
  · have hall' : (L.all fun s => decide (s = L.headD 0)) = false := by
      revert hall
      cases L.all fun s => decide (s = L.headD 0) <;> simp
    rw [if_pos (by rw [hall']; rfl)]
    constructor
    · intro _
      have hnot : ¬ ∀ x ∈ L, decide (x = L.headD 0) = true := by
        rw [← List.all_eq_true, hall']
        simp
      push_neg at hnot
      rcases hnot with ⟨x, hxL, hx⟩
      have hx' : x ≠ L.headD 0 := fun he => hx (decide_eq_true he)
      rw [hL] at hxL
      rcases List.mem_map.mp hxL with ⟨s, hs, rfl⟩
      exact ⟨s, hs, hx'⟩
    · intro _
      rfl

/-! ## C5 -/

/-- The save task `plan_tensor` builds from its arguments and the planner's
state. -/
def plannedSaveTask (p : MergePlanner) (name : String)
    (names_in : List String) (models : List ModelReference)
    (cfg_reader : ConfigReader) : SaveTask :=
  { tensor_name := name
    names_in := names_in
    models := models
    base_model := p.config.base_model
    method := if p._tokenizer_task && decide (name ∈ p.arch_info.embed_weights)
      then MergeMethodChoice.tokenizerPermutationMerge
      else MergeMethodChoice.configured p._method
    t := cfg_reader.t
    clone := p.clone_tensors }

/-- `plan_tensor` appends exactly one save task, built from its arguments and
the planner's state. -/
theorem plan_tensor_tasks_eq (p : MergePlanner) (name : String)
    (names_in : List String) (models : List ModelReference)
    (cfg_reader : ConfigReader) :
    (p.plan_tensor name names_in models cfg_reader)._tasks =
      p._tasks ++ [plannedSaveTask p name names_in models cfg_reader] := rfl

/-- Every save task the `plan_layer` loop appends records the interpolation
fraction `t` it was called with. -/
theorem plan_layer_mem_t (sources : List InputSliceDefinition) (off : Nat)
    (t : ℚ) (cfg : ConfigReader) :
    ∀ (l : List String) (q : MergePlanner) (s : SaveTask),
      s ∈ (l.foldl (planLayerStep sources off t cfg) q)._tasks →
      s ∈ q._tasks ∨ s.t = t := by
  intro l
  induction l with
  | nil => intro q s hs; exact Or.inl hs
  | cons a as ih =>
    intro q s hs
    rw [List.foldl_cons] at hs
    rcases ih (planLayerStep sources off t cfg q a) s hs with hin | ht
    · simp only [planLayerStep, plan_tensor_tasks_eq] at hin
      rcases List.mem_append.mp hin with h1 | h2
      · exact Or.inl h1
      · right
        rw [List.mem_singleton] at h2
        subst h2
        rfl
    · exact Or.inr ht

/-- C5: for every output layer index `idx` in `[0, num_layers)`, the layer
schedule of `plan_slice` pairs `idx` with exactly one interpolation fraction:
`idx / (num_layers - 1)` when the slice has more than one layer (and the
denominator is then nonzero, so no division by zero occurs), and exactly `1`
when the slice has a single layer; and every save task `plan_layer` appends
for that layer records this fraction. -/
theorem plan_slice_interpolation_fraction (num_layers : Int) (idx : Nat)
    (h : (idx : Int) < num_layers) :
    (idx, interpolationT num_layers idx) ∈ layerSchedule num_layers ∧
    (∀ t : ℚ, (idx, t) ∈ layerSchedule num_layers →
      t = interpolationT num_layers idx) ∧
    (num_layers > 1 →
      interpolationT num_layers idx = (idx : ℚ) / ((num_layers : ℚ) - 1) ∧
      ((num_layers : ℚ) - 1) ≠ 0) ∧
    (num_layers = 1 → interpolationT num_layers idx = 1) ∧
    (∀ (q : MergePlanner) (sources : List InputSliceDefinition)
        (cfg : ConfigReader) (s : SaveTask),
      s ∈ (q.plan_layer sources idx (interpolationT num_layers idx) cfg)._tasks →
      s ∈ q._tasks ∨ s.t = interpolationT num_layers idx) := by
  refine ⟨?_, ?_, ?_, ?_, ?_⟩
  · rw [layerSchedule]
    exact List.mem_map.mpr ⟨idx, List.mem_range.mpr (by omega), rfl⟩
  · intro t ht
    rw [layerSchedule] at ht
    rcases List.mem_map.mp ht with ⟨i, _, heq⟩
    have h1 : i = idx := congrArg Prod.fst heq
    have h2 : interpolationT num_layers i = t := congrArg Prod.snd heq
    rw [← h2, h1]
  · intro hgt
    refine ⟨by rw [interpolationT, if_pos hgt], ?_⟩
    have hne : (num_layers : ℚ) ≠ 1 := by
      exact_mod_cast (by omega : num_layers ≠ 1)
    exact sub_ne_zero.mpr hne
  · intro h1
    rw [interpolationT, h1]
    norm_num
  · exact fun q sources cfg s hs =>
      plan_layer_mem_t sources idx (interpolationT num_layers idx) cfg
        q.arch_info.layer_weight_formats q s hs

/-- Witness for C5: in a three-layer slice, output layer 1 is scheduled with
its interpolation fraction. -/
theorem plan_slice_interpolation_fraction_witness :
    ((1 : Nat), interpolationT 3 1) ∈ layerSchedule 3 :=
  (plan_slice_interpolation_fraction 3 1 (by decide)).1

/-! ## C8 -/

/-- C8: `plan_tensor` plans each weight with the vocabulary-alignment-aware
`TokenizerPermutationMerge` exactly when the weight name is in the
architecture's embedding-weight set and a tokenizer-build task exists;
otherwise the save task's merge computation is the configured merge method
unchanged. -/
theorem plan_tensor_embed_substitution (p : MergePlanner) (name : String)
    (names_in : List String) (models : List ModelReference)
    (cfg_reader : ConfigReader) :
    ∃ s : SaveTask,
      (p.plan_tensor name names_in models cfg_reader)._tasks =
        p._tasks ++ [s] ∧
      s.tensor_name = name ∧
      ((p._tokenizer_task = true ∧ name ∈ p.arch_info.embed_weights) →
        s.method = MergeMethodChoice.tokenizerPermutationMerge) ∧
      (¬(p._tokenizer_task = true ∧ name ∈ p.arch_info.embed_weights) →
        s.method = MergeMethodChoice.configured p._method) := by
  refine ⟨plannedSaveTask p name names_in models cfg_reader,
    plan_tensor_tasks_eq p name names_in models cfg_reader, rfl, ?_, ?_⟩
  · rintro ⟨h1, h2⟩
    show (if p._tokenizer_task && decide (name ∈ p.arch_info.embed_weights)
        then MergeMethodChoice.tokenizerPermutationMerge
        else MergeMethodChoice.configured p._method) = _
    rw [h1, decide_eq_true h2]
    rfl
  · intro hn
    show (if p._tokenizer_task && decide (name ∈ p.arch_info.embed_weights)
        then MergeMethodChoice.tokenizerPermutationMerge
        else MergeMethodChoice.configured p._method) = _
    have hc : (p._tokenizer_task &&
        decide (name ∈ p.arch_info.embed_weights)) = false := by
      cases htk : p._tokenizer_task with
      | false => rfl
      | true =>
        cases hmem : decide (name ∈ p.arch_info.embed_weights) with
        | false => rfl
        | true => exact absurd ⟨htk, of_decide_eq_true hmem⟩ hn
    rw [hc]
    rfl

/-! ## C3 -/

/-- A two-layer single-source passthrough slice configuration. -/
def cConfig : MergeConfiguration :=
  { merge_method := "passthrough",
    slices := [{ sources := [{ model := "A", layer_range := (0, 2) }] }] }

/-- An architecture with a single per-layer weight template and no pre, post
or embedding weights. -/
def cArch : ArchitectureInfo :=
  { embed_weights := []
    pre_weights := []
    post_weights := []
    layer_weight_formats := ["model.layers.\x7bidx\x7d.weight"] }

/-- The planner for the two-layer slice configuration. -/
def cPlanner : MergePlanner := MergePlanner.init cConfig cArch "out" {}

/-- The save task planned for output layer 0 of the slice. -/
def cS1 : SaveTask :=
  { tensor_name := "model.layers.0.weight"
    names_in := ["model.layers.0.weight"]
    models := ["A"]
    base_model := none
    method := MergeMethodChoice.configured "passthrough"
    t := interpolationT 2 0
    clone := false }

/-- The save task planned for output layer 1 of the slice: its inputs come
from source layer 1, but its output name still uses index 0. -/
def cS2 : SaveTask :=
  { tensor_name := "model.layers.0.weight"
    names_in := ["model.layers.1.weight"]
    models := ["A"]
    base_model := none
    method := MergeMethodChoice.configured "passthrough"
    t := interpolationT 2 1
    clone := false }

/-- C3: the claimed invariant that any two distinct save tasks in a plan have
different output tensor names fails on the code.  `_current_layers` is
initialized to 0 and never incremented, so `plan_layer` names every output
layer with index 0: planning a two-layer single-source slice yields two
distinct save tasks (different inputs and interpolation fractions) whose
`tensor_name` is identical. -/
theorem plan_duplicate_output_names :
    cPlanner.plan =
      .ok [Task.save cS1, Task.save cS2, Task.finalize [cS1, cS2],
        Task.buildTokenizer] ∧
    cS1 ≠ cS2 ∧ cS1.tensor_name = cS2.tensor_name := by
  refine ⟨rfl, ?_, rfl⟩
  intro hc
  exact absurd (congrArg SaveTask.names_in hc) (by decide)

/-! ## C9 -/

/-- A `foldl` whose step keeps `_tokenizer_task` keeps `_tokenizer_task`. -/
theorem foldl_tokenizer_task {α : Type} (f : MergePlanner → α → MergePlanner)
    (hf : ∀ q a, (f q a)._tokenizer_task = q._tokenizer_task) :
    ∀ (l : List α) (q : MergePlanner),
      (l.foldl f q)._tokenizer_task = q._tokenizer_task := by
  intro l
  induction l with
  | nil => intro q; rfl
  | cons a as ih =>
    intro q
    rw [List.foldl_cons, ih, hf]

/-- `plan_layer` keeps `_tokenizer_task`. -/
theorem plan_layer_tokenizer_task (q : MergePlanner)
    (sources : List InputSliceDefinition) (off : Nat) (t : ℚ)
    (cfg : ConfigReader) :
    (q.plan_layer sources off t cfg)._tokenizer_task = q._tokenizer_task :=
  foldl_tokenizer_task (planLayerStep sources off t cfg) (fun _ _ => rfl)
    q.arch_info.layer_weight_formats q

/-- A successful `plan_slice` keeps `_tokenizer_task`. -/
theorem plan_slice_tokenizer_task (p q : MergePlanner)
    (d : OutputSliceDefinition) (h : p.plan_slice d = .ok q) :
    q._tokenizer_task = p._tokenizer_task := by
  simp only [MergePlanner.plan_slice] at h
  by_cases hall : ((d.sources.map fun s => s.layer_range.2 - s.layer_range.1).all
      fun s => decide (s = (d.sources.map fun s =>
        s.layer_range.2 - s.layer_range.1).headD 0)) = true
  · rw [if_neg (by rw [hall]; simp)] at h
    cases hh : (d.sources.map fun s =>
        s.layer_range.2 - s.layer_range.1).head? with
    | none => rw [hh] at h; exact absurd h (by simp)
    | some n =>
      rw [hh] at h
      injection h with h'
      rw [← h']
      exact foldl_tokenizer_task _
        (fun r it => plan_layer_tokenizer_task r d.sources it.1 it.2 _)
        (layerSchedule n) p
  · have hall' : ((d.sources.map fun s => s.layer_range.2 - s.layer_range.1).all
        fun s => decide (s = (d.sources.map fun s =>
          s.layer_range.2 - s.layer_range.1).headD 0)) = false := by
      revert hall
      cases (d.sources.map fun s => s.layer_range.2 - s.layer_range.1).all
        fun s => decide (s = (d.sources.map fun s =>
          s.layer_range.2 - s.layer_range.1).headD 0) <;> simp
    rw [if_pos (by rw [hall']; rfl)] at h
    exact absurd h (by simp)

/-- A `foldlM` over `Except` whose step keeps `_tokenizer_task` on success
keeps `_tokenizer_task` on success. -/
theorem foldlM_tokenizer_task {α : Type}
    (f : MergePlanner → α → Except PyError MergePlanner)
    (hf : ∀ q a q', f q a = .ok q' →
      q'._tokenizer_task = q._tokenizer_task) :
    ∀ (l : List α) (q q' : MergePlanner),
      l.foldlM f q = .ok q' → q'._tokenizer_task = q._tokenizer_task := by
  intro l
  induction l with
  | nil =>
    intro q q' h
    injection h with h'
    rw [← h']
  | cons a as ih =>
    intro q q' h
    rw [List.foldlM_cons] at h
    cases hfa : f q a with
    | error e =>
      rw [hfa] at h
      exact Except.noConfusion h
    | ok q1 =>
      rw [hfa] at h
      have h' : as.foldlM f q1 = .ok q' := h
      rw [ih q1 q' h', hf q a q1 hfa]

/-- The pre-weight pass keeps `_tokenizer_task`. -/
theorem planPreWeights_tokenizer_task (p q : MergePlanner)
    (h : planPreWeights p = .ok q) :
    q._tokenizer_task = p._tokenizer_task := by
  refine foldlM_tokenizer_task _ ?_ _ _ _ h
  intro r a r' hr
  cases hh : r.config.slices.head? with
  | none =>
    rw [hh] at hr
    exact Except.noConfusion hr
  | some slice0 =>
    rw [hh] at hr
    injection hr with hr'
    rw [← hr']
    rfl

/-- The slice pass keeps `_tokenizer_task`. -/
theorem planSlices_tokenizer_task (p q : MergePlanner)
    (h : planSlices p = .ok q) :
    q._tokenizer_task = p._tokenizer_task :=
  foldlM_tokenizer_task _ (fun r s r' hr => plan_slice_tokenizer_task r r' s hr)
    _ _ _ h

/-- The post-weight pass keeps `_tokenizer_task`. -/
theorem planPostWeights_tokenizer_task (p q : MergePlanner)
    (h : planPostWeights p = .ok q) :
    q._tokenizer_task = p._tokenizer_task := by
  refine foldlM_tokenizer_task _ ?_ _ _ _ h
  intro r a r' hr
  cases hh : r.config.slices.getLast? with
  | none =>
    rw [hh] at hr
    exact Except.noConfusion hr
  | some sliceL =>
    rw [hh] at hr
    injection hr with hr'
    rw [← hr']
    rfl

/-- A successful `plan` returns a list containing the tokenizer task exactly
when the planner's `_tokenizer_task` is set. -/
theorem plan_tokenizer_mem (p : MergePlanner) (res : List Task)
    (h : p.plan = .ok res) :
    (Task.buildTokenizer ∈ res ↔ p._tokenizer_task = true) := by
  simp only [MergePlanner.plan] at h
  split at h
  next e heq => exact absurd h (by simp)
  next p1 heq1 =>
    split at h
    next e heq => exact absurd h (by simp)
    next p2 heq2 =>
      split at h
      next e heq => exact absurd h (by simp)
      next p3 heq3 =>
        injection h with h'
        subst h'
        have htok : p3._tokenizer_task = p._tokenizer_task := by
          rw [planPostWeights_tokenizer_task p2 p3 heq3,
            planSlices_tokenizer_task p1 p2 heq2,
            planPreWeights_tokenizer_task _ p1 heq1]
        rw [← htok]
        by_cases ht : p3._tokenizer_task = true
        · rw [if_pos ht]
          simp [ht]
        · rw [if_neg ht]
          simp [ht]

/-- C9: the plan returned by `MergePlanner.plan` contains the
tokenizer-construction task exactly when one was requested at planner
construction, i.e. when `__init__`'s guard on `config.merge_method` created
it; when no tokenizer task was created the plan contains none. -/
theorem plan_build_tokenizer_iff (config : MergeConfiguration)
    (arch_info : ArchitectureInfo) (out_path : String)
    (options : MergeOptions) (res : List Task)
    (h : (MergePlanner.init config arch_info out_path options).plan = .ok res) :
    Task.buildTokenizer ∈ res ↔ config.merge_method ≠ "" := by
  rw [plan_tokenizer_mem _ _ h]
  show (config.merge_method != "") = true ↔ _
  rw [bne_iff_ne]

/-- Witness for C9: a slice-less passthrough configuration plans successfully
and its plan contains the tokenizer task, since `merge_method` is set. -/
theorem plan_build_tokenizer_iff_witness :
    Task.buildTokenizer ∈ [Task.finalize [], Task.buildTokenizer] ↔
      ("passthrough" : String) ≠ "" :=
  plan_build_tokenizer_iff
    { merge_method := "passthrough", models := ["gpt2"] } default "out" {}
    [Task.finalize [], Task.buildTokenizer] rfl

/-! ## C10 -/

/-- Whether a task is the `FinalizeModel` task. -/
def Task.isFinalize : Task → Bool
  | Task.finalize _ => true
  | _ => false

/-- Save tasks are not finalizers. -/
theorem filter_isFinalize_map_save (l : List SaveTask) :
    (l.map Task.save).filter Task.isFinalize = [] := by
  induction l with
  | nil => rfl
  | cons a as ih =>
    rw [List.map_cons, List.filter_cons]
    simp [Task.isFinalize, ih]

/-- C10: a successful `plan` returns the save tasks followed by exactly one
`FinalizeModel` task whose `tensor_save_tasks` dependency list is the full
list of save tasks produced (pre-weights, all slice layers and post-weights);
every save task in the returned plan is among that finalizer's dependencies,
the finalizer is the unique finalize task of the plan, and only the optional
tokenizer task follows it. -/
theorem plan_single_finalizer (p : MergePlanner) (res : List Task)
    (h : p.plan = .ok res) :
    ∃ saves : List SaveTask,
      (res = saves.map Task.save ++ [Task.finalize saves] ∨
        res = saves.map Task.save ++ [Task.finalize saves] ++
          [Task.buildTokenizer]) ∧
      (∀ s : SaveTask, Task.save s ∈ res → s ∈ saves) ∧
      res.filter Task.isFinalize = [Task.finalize saves] := by
  simp only [MergePlanner.plan] at h
  split at h
  next e heq => exact absurd h (by simp)
  next p1 heq1 =>
    split at h
    next e heq => exact absurd h (by simp)
    next p2 heq2 =>
      split at h
      next e heq => exact absurd h (by simp)
      next p3 heq3 =>
        injection h with h'
        subst h'
        refine ⟨p3._tasks, ?_, ?_, ?_⟩
        · by_cases ht : p3._tokenizer_task = true
          · right; rw [if_pos ht]
          · left; rw [if_neg ht]
        · intro s hs
          by_cases ht : p3._tokenizer_task = true
          · rw [if_pos ht] at hs
            simpa using hs
          · rw [if_neg ht] at hs
            simpa using hs
        · by_cases ht : p3._tokenizer_task = true
          · rw [if_pos ht]
            simp [List.filter_append, filter_isFinalize_map_save,
              Task.isFinalize]
          · rw [if_neg ht]
            simp [List.filter_append, filter_isFinalize_map_save,
              Task.isFinalize]

/-- The plan computed for the two-layer slice configuration. -/
def cRes : List Task :=
  [Task.save cS1, Task.save cS2, Task.finalize [cS1, cS2],
    Task.buildTokenizer]

/-- Witness for C10 at the two-layer slice configuration. -/
theorem plan_single_finalizer_witness :
    ∃ saves : List SaveTask,
      (cRes = saves.map Task.save ++ [Task.finalize saves] ∨
        cRes = saves.map Task.save ++ [Task.finalize saves] ++
          [Task.buildTokenizer]) ∧
      (∀ s : SaveTask, Task.save s ∈ cRes → s ∈ saves) ∧
      cRes.filter Task.isFinalize = [Task.finalize saves] :=
  plan_single_finalizer cPlanner cRes rfl

end Mergekit
